import Mathlib

/-!
# glasskube: install-and-await workflow

A shallow embedding of `pkg/install/install.go` (the installer: `install`,
`awaitInstall`, `InstallBlocking`) and of the `Run` function of the install
command in `cmd/glasskube/cmd/install.go`.

Modelling decisions.

* Go's `(*client.PackageStatus, error)` result is a pair of two nullable
  values, `Option PackageStatus × Option GoError`; `none` is Go's `nil`.
* Effects (progress sink calls, the create request, opening the watch, every
  receive on the result channel, stopping the watcher) are recorded in order
  in a list of `Call`s returned next to the result. A deferred call is
  appended after the calls of the body it guards.
* The watch stream is the list of events the result channel delivers, in
  order, and a flag telling whether the producer closes the channel after
  them. A `for ... range` over a channel that is never closed does not
  return once the events are exhausted: the functions return `none` there.
* The remote client (`Create`, `Watch`) and `client.GetStatus` are not part
  of the embedded files; the installer takes them as parameters.
-/

namespace Glasskube

/-! ## Data model -/

/-- The type `types.UID` of k8s.io/apimachinery: a string. -/
abbrev UID := String

/-- Go `error` values: those built by `errors.New` in the embedded code and
those reported by the remote client. -/
inductive GoError where
  | errorsNew (text : String)
  | external (text : String)
  deriving DecidableEq, Repr

/-- The method `Error()` of an `error`. -/
def GoError.Error : GoError → String
  | .errorsNew text => text
  | .external text => text

/-- The reconciliation phases named by the status vocabulary. -/
inductive Phase where
  | Unknown
  | Progressing
  | Ready
  | Failed
  deriving DecidableEq, Repr

/-- Modelled from the spec: the type `v1alpha1.PackageStatus` (package
`api/v1alpha1`, not among the embedded files), the status payload carried by a
live object: a phase, a reason and a message, the last two possibly empty. -/
structure V1Alpha1PackageStatus where
  phase : Phase
  reason : String
  message : String
  deriving DecidableEq, Repr

/-- The type `client.PackageStatus`: the fields the install command reads. -/
structure PackageStatus where
  Status : String
  Reason : String
  Message : String
  deriving DecidableEq, Repr

/-- The custom resource `v1alpha1.Package`: name, requested version, the UID
assigned by the remote store and the status written by the controller. -/
structure Package where
  Name : String
  Version : String
  UID : String
  Status : V1Alpha1PackageStatus
  deriving DecidableEq, Repr

/-- The method `GetUID` of a package. -/
def Package.GetUID (p : Package) : Glasskube.UID := p.UID

/-- The event types of `k8s.io/apimachinery/pkg/watch`. -/
inductive EventType where
  | Added
  | Modified
  | Deleted
  | Bookmark
  | Error
  deriving DecidableEq, Repr

/-- A `runtime.Object` carried by an event: a package, or some other object
(for which the type assertion to `*v1alpha1.Package` fails). -/
inductive RuntimeObject where
  | package (obj : Package)
  | other (tag : Nat)
  deriving DecidableEq, Repr

/-- A `watch.Event`; the field `Typ` is Go's `Type`. -/
structure Event where
  Typ : EventType
  Object : RuntimeObject
  deriving DecidableEq, Repr

/-- A `watch.Interface` as the installer sees it: the events its result
channel delivers, in order, and whether the channel is closed after them. -/
structure WatchInterface where
  events : List Event
  closed : Bool
  deriving DecidableEq, Repr

/-- A `context.Context` as far as the workflow is concerned: whether the
caller cancels it (cancel or timeout) while the watch is running. -/
structure Context where
  cancelled : Bool
  deriving DecidableEq, Repr

/-- The remote resource client: `Packages().Create`, which fills in the
object it is given (the UID among others) and reports an error or nil, and
`Packages().Watch`, which returns a watcher or an error. -/
structure PackageV1Alpha1Client where
  Create : Context → Package → Package × Option GoError
  Watch : Context → Except GoError WatchInterface

/-- The observable calls made by the workflow, in the order they happen. -/
inductive Call where
  | statusStart
  | statusSetStatus (msg : String)
  | statusStop
  | create (pkg : Package)
  | watch
  | recv (event : Event)
  | watcherStop
  deriving DecidableEq, Repr

/-- The pair returned by `awaitInstall` and `InstallBlocking`. -/
abbrev Result := Option PackageStatus × Option GoError

/-! ## Constants and helpers of other packages -/

/-- Modelled from the spec: the constant `condition.Ready` of package
`pkg/condition`, the name of the phase `Ready`. -/
def condition.Ready : String := "Ready"

/-- Modelled from the spec: the constant `condition.Failed` of package
`pkg/condition`, the name of the phase `Failed`. -/
def condition.Failed : String := "Failed"

/-- The name under which a phase is reported. -/
def Phase.name : Phase → String
  | .Unknown => "Unknown"
  | .Progressing => "Progressing"
  | .Ready => condition.Ready
  | .Failed => condition.Failed

/-- Modelled from the spec: the function `client.GetStatus` of package
`pkg/client` (status extraction), which returns nil when the remote plane has
not yet populated a status (phase still Unknown, nothing else set) and a
populated status once any phase, reason, or message is present. -/
def client.GetStatus (s : V1Alpha1PackageStatus) : Option PackageStatus :=
  if s.phase = Phase.Unknown ∧ s.reason = "" ∧ s.message = "" then none
  else some { Status := s.phase.name, Reason := s.reason, Message := s.message }

/-- Modelled from the spec: the constructor `client.NewPackage` of package
`pkg/client`: the intent object built locally from name and version, with no
identity and no status before creation. -/
def client.NewPackage (packageName version : String) : Package :=
  { Name := packageName, Version := version, UID := "",
    Status := { phase := Phase.Unknown, reason := "", message := "" } }

/-! ## pkg/install/install.go -/

/-- The error returned when the created package is deleted (install.go:74). -/
def errDeleted : GoError :=
  GoError.errorsNew "created package has been deleted unexpectedly"

/-- The error returned when the stream ends undecided (install.go:78). -/
def errUnconfirmed : GoError :=
  GoError.errorsNew "failed to confirm package installation status"

/-- The method `installer.install` (install.go:51-59): report progress, build
the package, send one create request; `(nil, err)` is `Except.error err` and
`(pkg, nil)` is `Except.ok pkg`, the two returns of the method. -/
def installer.install (c : PackageV1Alpha1Client) (ctx : Context)
    (packageName version : String) : Except GoError Package × List Call :=
  let pkg := client.NewPackage packageName version
  let sent := [Call.statusSetStatus ("Installing " ++ packageName ++ "..."), Call.create pkg]
  match c.Create ctx pkg with
  | (_, some err) => (Except.error err, sent)
  | (pkg1, none) => (Except.ok pkg1, sent)

/-- The body of the loop of `awaitInstall` (install.go:68-76) for one event:
`some r` when the body returns `r` from the function, `none` when the loop
goes on to the next event. -/
def awaitInstall.body (GetStatus : V1Alpha1PackageStatus → Option PackageStatus)
    (pkgUID : UID) (event : Event) : Option Result :=
  match event.Object with
  | .package obj =>
    if obj.GetUID = pkgUID then
      if event.Typ = EventType.Added ∨ event.Typ = EventType.Modified then
        match GetStatus obj.Status with
        | some status => some (some status, none)
        | none => none
      else if event.Typ = EventType.Deleted then
        some (none, some errDeleted)
      else none
    else none
  | .other _ => none

/-- The loop `for event := range watcher.ResultChan()` of `awaitInstall`
(install.go:67-78) with the return that follows it: the result and the
receives made, or `none` when the channel runs dry without being closed. -/
def awaitInstall.loop (GetStatus : V1Alpha1PackageStatus → Option PackageStatus)
    (pkgUID : UID) (closed : Bool) : List Event → Option (Result × List Call)
  | [] => if closed then some ((none, some errUnconfirmed), []) else none
  | event :: rest =>
    match awaitInstall.body GetStatus pkgUID event with
    | some r => some (r, [Call.recv event])
    | none =>
      match awaitInstall.loop GetStatus pkgUID closed rest with
      | some (r, calls) => some (r, Call.recv event :: calls)
      | none => none

/-- The method `installer.awaitInstall` (install.go:61-79). -/
def installer.awaitInstall (c : PackageV1Alpha1Client)
    (GetStatus : V1Alpha1PackageStatus → Option PackageStatus)
    (ctx : Context) (pkgUID : UID) : Option (Result × List Call) :=
  match c.Watch ctx with
  | .error err => some ((none, some err), [Call.watch])
  | .ok watcher =>
    match awaitInstall.loop GetStatus pkgUID watcher.closed watcher.events with
    | some (r, calls) => some (r, Call.watch :: calls ++ [Call.watcherStop])
    | none => none

/-- The method `installer.InstallBlocking` (install.go:32-40); the deferred
`obj.status.Stop()` closes the calls of every return. -/
def installer.InstallBlocking (c : PackageV1Alpha1Client)
    (GetStatus : V1Alpha1PackageStatus → Option PackageStatus)
    (ctx : Context) (packageName version : String) : Option (Result × List Call) :=
  match installer.install c ctx packageName version with
  | (Except.error err, calls) =>
    some ((none, some err), Call.statusStart :: calls ++ [Call.statusStop])
  | (Except.ok pkg, calls) =>
    match installer.awaitInstall c GetStatus ctx pkg.GetUID with
    | some (r, calls1) =>
      some (r, Call.statusStart :: calls ++ calls1 ++ [Call.statusStop])
    | none => none

/-! ## cmd/glasskube/cmd/install.go -/

/-- What a run of the command leaves behind: the text written to standard
output and to standard error, and the code passed to `os.Exit`, if called. -/
structure Output where
  stdout : String
  stderr : String
  exit : Option Nat
  deriving DecidableEq, Repr

/-- The function `Run` of `installCmd` (install.go:23-42), from the point
where `InstallBlocking` has returned `(status, err)`. -/
def installCmd.Run (result : Result) : Output :=
  match result with
  | (_, some err) =>
    { stdout := "",
      stderr := "An error occurred during installation:\n\n" ++ err.Error ++ "\n",
      exit := some 1 }
  | (some status, none) =>
    if status.Status = condition.Ready then
      { stdout := "Installed successfully.\n", stderr := "", exit := none }
    else
      { stdout := "Installation has status " ++ status.Status ++ ", reason: " ++ status.Reason
          ++ "\nMessage: " ++ status.Message ++ "\n",
        stderr := "", exit := none }
  | (none, none) =>
    { stdout := "",
      stderr := "Installation status unknown - no error and no status have been observed (this is a bug).\n",
      exit := some 1 }

/-! ## Predicates on events -/

/-- The event is about the package with the given UID. -/
def Event.matchesUID (pkgUID : UID) (event : Event) : Bool :=
  match event.Object with
  | .package obj => decide (obj.GetUID = pkgUID)
  | .other _ => false

/-- The status extracted from the object of an event, nil for an object that
is not a package. -/
def Event.extracted (GetStatus : V1Alpha1PackageStatus → Option PackageStatus)
    (event : Event) : Option PackageStatus :=
  match event.Object with
  | .package obj => GetStatus obj.Status
  | .other _ => none

/-- A deciding event: a package with the target UID, either Deleted, or
Added/Modified with a non-nil extracted status. -/
def Event.deciding (GetStatus : V1Alpha1PackageStatus → Option PackageStatus)
    (pkgUID : UID) (event : Event) : Bool :=
  event.matchesUID pkgUID &&
    (decide (event.Typ = EventType.Deleted) ||
      ((decide (event.Typ = EventType.Added) || decide (event.Typ = EventType.Modified)) &&
        (event.extracted GetStatus).isSome))

/-! ## Concrete inputs

The scenarios of the specification, used to run the definitions. -/

/-- A package named `app` with the given UID and status. -/
def examplePackage (uid : UID) (phase : Phase) (reason message : String) : Package :=
  { Name := "app", Version := "", UID := uid,
    Status := { phase := phase, reason := reason, message := message } }

/-- An event about a package named `app`. -/
def exampleEvent (typ : EventType) (uid : UID) (phase : Phase)
    (reason message : String) : Event :=
  { Typ := typ, Object := RuntimeObject.package (examplePackage uid phase reason message) }

/-- A client whose create request succeeds and assigns the UID `U1`, and whose
watch delivers the given events. -/
def exampleClient (events : List Event) (closed : Bool) : PackageV1Alpha1Client :=
  { Create := fun _ pkg => ({ pkg with UID := "U1" }, none),
    Watch := fun _ => Except.ok { events := events, closed := closed } }

/-- A client whose create request is rejected. -/
def rejectingClient : PackageV1Alpha1Client :=
  { Create := fun _ pkg => (pkg, some (GoError.external "packages.glasskube.dev app already exists")),
    Watch := fun _ => Except.ok { events := [], closed := true } }

/-- A client whose watch cannot be opened. -/
def unwatchableClient : PackageV1Alpha1Client :=
  { Create := fun _ pkg => ({ pkg with UID := "U1" }, none),
    Watch := fun _ => Except.error (GoError.external "connection refused") }

/-- A context the caller does not cancel. -/
def background : Context := { cancelled := false }

/-- A context the caller cancels while the watch is running. -/
def cancelledContext : Context := { cancelled := true }

/-- Scenario B, with a status-less Added event of the target before the
deciding one and a deletion after it. -/
def scenarioB : List Event :=
  [exampleEvent EventType.Modified "U2" Phase.Ready "" "",
   exampleEvent EventType.Added "U1" Phase.Unknown "" "",
   exampleEvent EventType.Added "U1" Phase.Failed "ImagePullError" "",
   exampleEvent EventType.Deleted "U1" Phase.Failed "ImagePullError" ""]

/-- Scenario C, with an unrelated event before the deletion and a Ready
status after it. -/
def scenarioC : List Event :=
  [exampleEvent EventType.Modified "U2" Phase.Ready "" "",
   exampleEvent EventType.Deleted "U1" Phase.Unknown "" "",
   exampleEvent EventType.Modified "U1" Phase.Ready "" ""]

/-- A stream without a deciding event for `U1`: another package reaches
Ready and is deleted, the target is added without a status. -/
def scenarioD : List Event :=
  [exampleEvent EventType.Modified "U2" Phase.Ready "" "",
   exampleEvent EventType.Added "U1" Phase.Unknown "" "",
   exampleEvent EventType.Deleted "U2" Phase.Ready "" ""]

/-- Scenario B without the event of the other package. -/
def scenarioBTargetOnly : List Event :=
  [exampleEvent EventType.Added "U1" Phase.Unknown "" "",
   exampleEvent EventType.Added "U1" Phase.Failed "ImagePullError" "",
   exampleEvent EventType.Deleted "U1" Phase.Failed "ImagePullError" ""]

/-- A stream on which the target reports that it is still progressing. -/
def scenarioProgressing : List Event :=
  [exampleEvent EventType.Modified "U1" Phase.Progressing "" "Pulling image"]

/-- The line of the "no error and no status" branch of the command. -/
def bugLine : String :=
  "Installation status unknown - no error and no status have been observed (this is a bug).\n"

/-! ## Helper lemmas on the loop -/

theorem body_eq_none_of_not_matches (gs : V1Alpha1PackageStatus → Option PackageStatus)
    (pkgUID : UID) (event : Event) (h : event.matchesUID pkgUID = false) :
    awaitInstall.body gs pkgUID event = none := by
  unfold awaitInstall.body
  unfold Event.matchesUID at h
  cases hobj : event.Object with
  | package obj =>
    simp only [hobj, decide_eq_false_iff_not] at h
    simp [h]
  | other tag => simp

theorem body_eq_none_iff (gs : V1Alpha1PackageStatus → Option PackageStatus)
    (pkgUID : UID) (event : Event) :
    awaitInstall.body gs pkgUID event = none ↔ event.deciding gs pkgUID = false := by
  unfold awaitInstall.body Event.deciding Event.matchesUID Event.extracted
  cases hobj : event.Object with
  | package obj =>
    by_cases hu : obj.GetUID = pkgUID
    · cases ht : event.Typ <;> cases hg : gs obj.Status <;> simp [hu, hg, errDeleted]
    · simp [hu]
  | other tag => simp

theorem body_of_status (gs : V1Alpha1PackageStatus → Option PackageStatus)
    (pkgUID : UID) (event : Event) (status : PackageStatus)
    (hm : event.matchesUID pkgUID = true)
    (ht : event.Typ = EventType.Added ∨ event.Typ = EventType.Modified)
    (hs : event.extracted gs = some status) :
    awaitInstall.body gs pkgUID event = some (some status, none) := by
  unfold awaitInstall.body
  unfold Event.matchesUID at hm
  unfold Event.extracted at hs
  cases hobj : event.Object with
  | package obj =>
    simp only [hobj, decide_eq_true_eq] at hm hs
    simp [hm, ht, hs]
  | other tag => simp [hobj] at hm

theorem body_of_deleted (gs : V1Alpha1PackageStatus → Option PackageStatus)
    (pkgUID : UID) (event : Event)
    (hm : event.matchesUID pkgUID = true) (ht : event.Typ = EventType.Deleted) :
    awaitInstall.body gs pkgUID event = some (none, some errDeleted) := by
  unfold awaitInstall.body
  unfold Event.matchesUID at hm
  cases hobj : event.Object with
  | package obj =>
    simp only [hobj, decide_eq_true_eq] at hm
    simp [hm, ht]
  | other tag => simp [hobj] at hm

theorem loop_cons_of_skipped (gs : V1Alpha1PackageStatus → Option PackageStatus)
    (pkgUID : UID) (closed : Bool) (event : Event) (rest : List Event)
    (h : awaitInstall.body gs pkgUID event = none) :
    awaitInstall.loop gs pkgUID closed (event :: rest) =
      (awaitInstall.loop gs pkgUID closed rest).map
        (fun p => (p.1, Call.recv event :: p.2)) := by
  simp only [awaitInstall.loop, h]
  cases awaitInstall.loop gs pkgUID closed rest <;> simp

/-- Events at which the body does not return are received and passed over. -/
theorem loop_append_of_skipped (gs : V1Alpha1PackageStatus → Option PackageStatus)
    (pkgUID : UID) (closed : Bool) (pre rest : List Event)
    (h : ∀ e ∈ pre, awaitInstall.body gs pkgUID e = none) :
    awaitInstall.loop gs pkgUID closed (pre ++ rest) =
      (awaitInstall.loop gs pkgUID closed rest).map
        (fun p => (p.1, pre.map Call.recv ++ p.2)) := by
  induction pre with
  | nil => simp
  | cons e pre ih =>
    have he : awaitInstall.body gs pkgUID e = none := h e (List.mem_cons_self _ _)
    have hpre : ∀ x ∈ pre, awaitInstall.body gs pkgUID x = none :=
      fun x hx => h x (List.mem_cons_of_mem _ hx)
    have ih1 := ih hpre
    rw [List.cons_append, loop_cons_of_skipped gs pkgUID closed e _ he, ih1]
    cases awaitInstall.loop gs pkgUID closed rest <;> simp

/-- The loop returns at the first event at which the body returns. -/
theorem loop_at_first (gs : V1Alpha1PackageStatus → Option PackageStatus)
    (pkgUID : UID) (closed : Bool) (pre post : List Event) (event : Event) (r : Result)
    (h : ∀ e ∈ pre, awaitInstall.body gs pkgUID e = none)
    (he : awaitInstall.body gs pkgUID event = some r) :
    awaitInstall.loop gs pkgUID closed (pre ++ event :: post) =
      some (r, (pre ++ [event]).map Call.recv) := by
  rw [loop_append_of_skipped gs pkgUID closed pre (event :: post) h]
  simp [awaitInstall.loop, he]

/-- The result of the loop depends only on the events about the target. -/
theorem loop_filter (gs : V1Alpha1PackageStatus → Option PackageStatus)
    (pkgUID : UID) (closed : Bool) (events : List Event) :
    (awaitInstall.loop gs pkgUID closed events).map Prod.fst =
      (awaitInstall.loop gs pkgUID closed
        (events.filter (Event.matchesUID pkgUID))).map Prod.fst := by
  induction events with
  | nil => simp
  | cons e rest ih =>
    cases hm : e.matchesUID pkgUID with
    | false =>
      have hb := body_eq_none_of_not_matches gs pkgUID e hm
      rw [List.filter_cons_of_neg (by simp [hm]), ← ih]
      simp only [awaitInstall.loop, hb]
      cases awaitInstall.loop gs pkgUID closed rest <;> simp
    | true =>
      rw [List.filter_cons_of_pos (by simp [hm])]
      simp only [awaitInstall.loop]
      cases hb : awaitInstall.body gs pkgUID e with
      | some r => simp
      | none =>
        simp only
        cases h1 : awaitInstall.loop gs pkgUID closed rest <;>
          cases h2 : awaitInstall.loop gs pkgUID closed
            (rest.filter (Event.matchesUID pkgUID)) <;>
          simp [h1, h2] at ih ⊢
        exact ih

/-- What a return of the loop body looks like: a deletion of the target, or
the status extracted from an Added/Modified event of the target. -/
theorem body_eq_some (gs : V1Alpha1PackageStatus → Option PackageStatus)
    (pkgUID : UID) (event : Event) (r : Result)
    (h : awaitInstall.body gs pkgUID event = some r) :
    event.matchesUID pkgUID = true ∧
      ((event.Typ = EventType.Deleted ∧ r = (none, some errDeleted)) ∨
        ((event.Typ = EventType.Added ∨ event.Typ = EventType.Modified) ∧
          ∃ status, event.extracted gs = some status ∧ r = (some status, none))) := by
  unfold awaitInstall.body at h
  unfold Event.matchesUID Event.extracted
  cases hobj : event.Object with
  | package obj =>
    simp only [hobj] at h ⊢
    by_cases hu : obj.GetUID = pkgUID
    · cases ht : event.Typ <;> cases hg : gs obj.Status <;>
        simp [hu, ht, hg] at h ⊢ <;> exact h.symm
    · simp [hu] at h
  | other tag => simp [hobj] at h

/-- The calls of the loop are receives of a leading part of the stream. -/
theorem loop_calls (gs : V1Alpha1PackageStatus → Option PackageStatus)
    (pkgUID : UID) (closed : Bool) (events : List Event) (r : Result) (calls : List Call)
    (h : awaitInstall.loop gs pkgUID closed events = some (r, calls)) :
    ∃ read, read <+: events ∧ calls = read.map Call.recv := by
  induction events generalizing calls with
  | nil =>
    refine ⟨[], List.prefix_refl _, ?_⟩
    cases closed <;> simp [awaitInstall.loop] at h
    simp [h.2]
  | cons e rest ih =>
    cases hb : awaitInstall.body gs pkgUID e with
    | some r1 =>
      simp only [awaitInstall.loop, hb, Option.some.injEq, Prod.mk.injEq] at h
      exact ⟨[e], by simp, by simp [← h.2]⟩
    | none =>
      rw [loop_cons_of_skipped gs pkgUID closed e rest hb] at h
      cases hl : awaitInstall.loop gs pkgUID closed rest with
      | none => simp [hl] at h
      | some p =>
        obtain ⟨r2, calls2⟩ := p
        simp only [hl, Option.map_some', Option.some.injEq, Prod.mk.injEq] at h
        obtain ⟨read, hpre, hcalls⟩ := ih calls2 (by rw [hl, h.1])
        refine ⟨e :: read, ?_, ?_⟩
        · exact (List.prefix_cons_inj e).mpr hpre
        · simp [← h.2, hcalls]

/-- A deletion of the target that no status of the target precedes ends the
loop with the deletion error, at that event or at an earlier deletion. -/
theorem loop_deleted (gs : V1Alpha1PackageStatus → Option PackageStatus)
    (pkgUID : UID) (closed : Bool) (pre post : List Event) (event : Event)
    (hpre : ∀ e ∈ pre, ¬ (e.matchesUID pkgUID = true ∧
      (e.Typ = EventType.Added ∨ e.Typ = EventType.Modified) ∧
      (e.extracted gs).isSome = true))
    (hm : event.matchesUID pkgUID = true) (ht : event.Typ = EventType.Deleted) :
    ∃ read, read <+: pre ++ [event] ∧
      awaitInstall.loop gs pkgUID closed (pre ++ event :: post) =
        some ((none, some errDeleted), read.map Call.recv) := by
  induction pre with
  | nil =>
    refine ⟨[event], by simp, ?_⟩
    simp [awaitInstall.loop, body_of_deleted gs pkgUID event hm ht]
  | cons e pre ih =>
    have hpre1 : ∀ x ∈ pre, ¬ (x.matchesUID pkgUID = true ∧
        (x.Typ = EventType.Added ∨ x.Typ = EventType.Modified) ∧
        (x.extracted gs).isSome = true) :=
      fun x hx => hpre x (List.mem_cons_of_mem _ hx)
    obtain ⟨read, hread, hloop⟩ := ih hpre1
    cases hb : awaitInstall.body gs pkgUID e with
    | none =>
      refine ⟨e :: read, ?_, ?_⟩
      · rw [List.cons_append]
        exact (List.prefix_cons_inj e).mpr hread
      · rw [List.cons_append, loop_cons_of_skipped gs pkgUID closed e _ hb, hloop]
        simp
    | some r =>
      obtain ⟨hme, hr⟩ := body_eq_some gs pkgUID e r hb
      rcases hr with ⟨_, hr⟩ | ⟨hte, status, hst, _⟩
      · refine ⟨[e], by simp, ?_⟩
        simp [awaitInstall.loop, hb, hr]
      · exact absurd ⟨hme, hte, by simp [hst]⟩ (hpre e (List.mem_cons_self _ _))

/-- A stream without a deciding event is received to its end. -/
theorem loop_undecided (gs : V1Alpha1PackageStatus → Option PackageStatus)
    (pkgUID : UID) (closed : Bool) (events : List Event)
    (h : ∀ e ∈ events, e.deciding gs pkgUID = false) :
    awaitInstall.loop gs pkgUID closed events =
      if closed then some ((none, some errUnconfirmed), events.map Call.recv) else none := by
  have hskip : ∀ e ∈ events, awaitInstall.body gs pkgUID e = none :=
    fun e he => (body_eq_none_iff gs pkgUID e).mpr (h e he)
  have := loop_append_of_skipped gs pkgUID closed events [] hskip
  rw [List.append_nil] at this
  rw [this]
  cases closed <;> simp [awaitInstall.loop]

/-- The three ways the loop returns: the deletion error, the stream-end
error once every event was passed over and the channel is closed, or the
status extracted from an Added/Modified event of the target. -/
theorem loop_result (gs : V1Alpha1PackageStatus → Option PackageStatus)
    (pkgUID : UID) (closed : Bool) (events : List Event) (r : Result) (calls : List Call)
    (h : awaitInstall.loop gs pkgUID closed events = some (r, calls)) :
    r = (none, some errDeleted) ∨
      (r = (none, some errUnconfirmed) ∧ closed = true ∧
        ∀ e ∈ events, e.deciding gs pkgUID = false) ∨
      ∃ status event, event ∈ events ∧ event.matchesUID pkgUID = true ∧
        (event.Typ = EventType.Added ∨ event.Typ = EventType.Modified) ∧
        event.extracted gs = some status ∧ r = (some status, none) := by
  induction events generalizing calls with
  | nil =>
    cases closed <;> simp [awaitInstall.loop] at h
    exact Or.inr (Or.inl ⟨h.1.symm, rfl, by simp⟩)
  | cons e rest ih =>
    cases hb : awaitInstall.body gs pkgUID e with
    | some r1 =>
      simp only [awaitInstall.loop, hb, Option.some.injEq, Prod.mk.injEq] at h
      obtain ⟨hme, hr⟩ := body_eq_some gs pkgUID e r1 hb
      rw [h.1] at hr
      rcases hr with ⟨_, hr⟩ | ⟨hte, status, hst, hr⟩
      · exact Or.inl hr
      · exact Or.inr (Or.inr ⟨status, e, List.mem_cons_self _ _, hme, hte, hst, hr⟩)
    | none =>
      rw [loop_cons_of_skipped gs pkgUID closed e rest hb] at h
      cases hl : awaitInstall.loop gs pkgUID closed rest with
      | none => simp [hl] at h
      | some p =>
        obtain ⟨r2, calls2⟩ := p
        simp only [hl, Option.map_some', Option.some.injEq, Prod.mk.injEq] at h
        rcases ih calls2 (by rw [hl, h.1]) with hr | ⟨hr, hc, hall⟩ | ⟨status, ev, hmem, hrest⟩
        · exact Or.inl hr
        · refine Or.inr (Or.inl ⟨hr, hc, ?_⟩)
          intro x hx
          rcases List.mem_cons.mp hx with hx | hx
          · rw [hx]
            exact (body_eq_none_iff gs pkgUID e).mp hb
          · exact hall x hx
        · exact Or.inr (Or.inr ⟨status, ev, List.mem_cons_of_mem _ hmem, hrest⟩)

/-- The loop does not return only on a stream that neither decides nor is
closed. -/
theorem loop_eq_none (gs : V1Alpha1PackageStatus → Option PackageStatus)
    (pkgUID : UID) (closed : Bool) (events : List Event)
    (h : awaitInstall.loop gs pkgUID closed events = none) :
    closed = false ∧ ∀ e ∈ events, e.deciding gs pkgUID = false := by
  induction events with
  | nil =>
    cases closed <;> simp [awaitInstall.loop] at h
    simp
  | cons e rest ih =>
    cases hb : awaitInstall.body gs pkgUID e with
    | some r1 => simp [awaitInstall.loop, hb] at h
    | none =>
      rw [loop_cons_of_skipped gs pkgUID closed e rest hb] at h
      cases hl : awaitInstall.loop gs pkgUID closed rest with
      | some p => simp [hl] at h
      | none =>
        obtain ⟨hc, hall⟩ := ih hl
        refine ⟨hc, ?_⟩
        intro x hx
        rcases List.mem_cons.mp hx with hx | hx
        · rw [hx]
          exact (body_eq_none_iff gs pkgUID e).mp hb
        · exact hall x hx

/-- With the watch open, `awaitInstall` is the loop between the opening of
the watch and the deferred stop of the watcher. -/
theorem awaitInstall_of_watch (c : PackageV1Alpha1Client)
    (gs : V1Alpha1PackageStatus → Option PackageStatus) (ctx : Context) (pkgUID : UID)
    (watcher : WatchInterface) (hw : c.Watch ctx = Except.ok watcher) :
    installer.awaitInstall c gs ctx pkgUID =
      (awaitInstall.loop gs pkgUID watcher.closed watcher.events).map
        (fun p => (p.1, Call.watch :: p.2 ++ [Call.watcherStop])) := by
  unfold installer.awaitInstall
  rw [hw]
  show (match awaitInstall.loop gs pkgUID watcher.closed watcher.events with
    | some (r, calls) => some (r, Call.watch :: calls ++ [Call.watcherStop])
    | none => none) = _
  cases hl : awaitInstall.loop gs pkgUID watcher.closed watcher.events <;> simp

/-- The line the command writes for an error is not the line of its
"no error and no status" branch. -/
theorem error_line_ne_bug_line (text : String) :
    "An error occurred during installation:\n\n" ++ text ++ "\n" ≠
      "Installation status unknown - no error and no status have been observed (this is a bug).\n" := by
  intro h
  have h1 := congrArg String.data h
  simp only [String.data_append] at h1
  have h2 := congrArg List.head? h1
  simp at h2

/-- The calls of `awaitInstall`: the watch alone when it cannot be opened,
otherwise the watch, receives of a leading part of the stream, and the stop
of the watcher. -/
theorem awaitInstall_calls (c : PackageV1Alpha1Client)
    (gs : V1Alpha1PackageStatus → Option PackageStatus) (ctx : Context) (pkgUID : UID)
    (r : Result) (calls : List Call)
    (h : installer.awaitInstall c gs ctx pkgUID = some (r, calls)) :
    (∃ err, c.Watch ctx = Except.error err ∧ r = (none, some err) ∧ calls = [Call.watch]) ∨
      ∃ watcher read, c.Watch ctx = Except.ok watcher ∧ read <+: watcher.events ∧
        awaitInstall.loop gs pkgUID watcher.closed watcher.events =
          some (r, read.map Call.recv) ∧
        calls = Call.watch :: read.map Call.recv ++ [Call.watcherStop] := by
  cases hw : c.Watch ctx with
  | error err =>
    left
    unfold installer.awaitInstall at h
    simp only [hw, Option.some.injEq, Prod.mk.injEq] at h
    exact ⟨err, rfl, h.1.symm, h.2.symm⟩
  | ok watcher =>
    right
    rw [awaitInstall_of_watch c gs ctx pkgUID watcher hw] at h
    cases hl : awaitInstall.loop gs pkgUID watcher.closed watcher.events with
    | none => simp [hl] at h
    | some p =>
      obtain ⟨r2, calls2⟩ := p
      simp only [hl, Option.map_some', Option.some.injEq, Prod.mk.injEq] at h
      obtain ⟨read, hread, hcalls⟩ := loop_calls gs pkgUID watcher.closed watcher.events r2 calls2 hl
      refine ⟨watcher, read, rfl, hread, ?_, ?_⟩
      · rw [← h.1, ← hcalls]
        exact hl
      · rw [← h.2, hcalls]

/-- What `InstallBlocking` does, by the outcome of the create request. -/
theorem InstallBlocking_eq (c : PackageV1Alpha1Client)
    (gs : V1Alpha1PackageStatus → Option PackageStatus) (ctx : Context)
    (packageName version : String) :
    (∃ pkg err, c.Create ctx (client.NewPackage packageName version) = (pkg, some err) ∧
      installer.InstallBlocking c gs ctx packageName version =
        some ((none, some err),
          [Call.statusStart, Call.statusSetStatus ("Installing " ++ packageName ++ "..."),
            Call.create (client.NewPackage packageName version), Call.statusStop])) ∨
    (∃ pkg, c.Create ctx (client.NewPackage packageName version) = (pkg, none) ∧
      installer.InstallBlocking c gs ctx packageName version =
        (installer.awaitInstall c gs ctx pkg.GetUID).map
          (fun p => (p.1,
            [Call.statusStart, Call.statusSetStatus ("Installing " ++ packageName ++ "..."),
              Call.create (client.NewPackage packageName version)] ++ p.2
              ++ [Call.statusStop]))) := by
  cases hc : c.Create ctx (client.NewPackage packageName version) with
  | mk pkg oerr =>
    cases oerr with
    | some err =>
      left
      refine ⟨pkg, err, rfl, ?_⟩
      simp [installer.InstallBlocking, installer.install, hc]
    | none =>
      right
      refine ⟨pkg, rfl, ?_⟩
      simp only [installer.InstallBlocking, installer.install, hc]
      cases installer.awaitInstall c gs ctx pkg.GetUID <;> simp

/-- The command takes its "no error and no status" branch on no pair of
which exactly one component is nil. -/
theorem Run_not_bug_branch (r : Result)
    (h : (r.1.isSome = true ∧ r.2 = none) ∨ (r.1 = none ∧ r.2.isSome = true)) :
    r ≠ (none, none) ∧ (installCmd.Run r).stderr ≠ bugLine := by
  obtain ⟨status, err⟩ := r
  cases status with
  | none =>
    cases err with
    | none => simp at h
    | some e =>
      refine ⟨by simp, ?_⟩
      simp only [installCmd.Run, bugLine]
      exact error_line_ne_bug_line e.Error
  | some st =>
    cases err with
    | some e => simp at h
    | none =>
      refine ⟨by simp, ?_⟩
      simp only [installCmd.Run, bugLine]
      split
      · decide
      · show "" ≠ _
        decide

/-- Every return of `awaitInstall` carries either a status or an error. -/
theorem awaitInstall_result (c : PackageV1Alpha1Client)
    (gs : V1Alpha1PackageStatus → Option PackageStatus) (ctx : Context) (pkgUID : UID)
    (r : Result) (calls : List Call)
    (h : installer.awaitInstall c gs ctx pkgUID = some (r, calls)) :
    (r.1.isSome = true ∧ r.2 = none) ∨ (r.1 = none ∧ r.2.isSome = true) := by
  rcases awaitInstall_calls c gs ctx pkgUID r calls h with
    ⟨err, _, hr, _⟩ | ⟨watcher, read, _, _, hloop, _⟩
  · right
    simp [hr]
  · rcases loop_result gs pkgUID watcher.closed watcher.events r _ hloop with
      hr | ⟨hr, _, _⟩ | ⟨status, ev, _, _, _, _, hr⟩
    · right
      simp [hr]
    · right
      simp [hr]
    · left
      simp [hr]

/-- Whatever the status extraction is: a status that `InstallBlocking`
returns with a nil error is the non-nil status extracted from an Added or
Modified event of the created package, without any check of its phase; it is
Ready or Failed whenever the extraction yields no other status. -/
theorem InstallBlocking_status_is_extracted (c : PackageV1Alpha1Client)
    (gs : V1Alpha1PackageStatus → Option PackageStatus) (ctx : Context)
    (packageName version : String) (status : PackageStatus) (calls : List Call)
    (h : installer.InstallBlocking c gs ctx packageName version =
      some ((some status, none), calls)) :
    (∃ pkg watcher event,
        c.Create ctx (client.NewPackage packageName version) = (pkg, none) ∧
        c.Watch ctx = Except.ok watcher ∧ event ∈ watcher.events ∧
        event.matchesUID pkg.GetUID = true ∧
        (event.Typ = EventType.Added ∨ event.Typ = EventType.Modified) ∧
        event.extracted gs = some status) ∧
      ((∀ raw s, gs raw = some s → s.Status = condition.Ready ∨ s.Status = condition.Failed) →
        status.Status = condition.Ready ∨ status.Status = condition.Failed) := by
  have hex : ∃ pkg watcher event,
      c.Create ctx (client.NewPackage packageName version) = (pkg, none) ∧
      c.Watch ctx = Except.ok watcher ∧ event ∈ watcher.events ∧
      event.matchesUID pkg.GetUID = true ∧
      (event.Typ = EventType.Added ∨ event.Typ = EventType.Modified) ∧
      event.extracted gs = some status := by
    rcases InstallBlocking_eq c gs ctx packageName version with
      ⟨pkg, err, _, hib⟩ | ⟨pkg, hc, hib⟩
    · rw [hib] at h
      simp at h
    · rw [hib] at h
      cases ha : installer.awaitInstall c gs ctx pkg.GetUID with
      | none => simp [ha] at h
      | some p =>
        obtain ⟨r1, calls1⟩ := p
        simp only [ha, Option.map_some', Option.some.injEq, Prod.mk.injEq] at h
        rcases awaitInstall_calls c gs ctx pkg.GetUID r1 calls1 ha with
          ⟨err, _, hr, _⟩ | ⟨watcher, read, hw, _, hloop, _⟩
        · rw [hr] at h
          simp at h
        · rcases loop_result gs pkg.GetUID watcher.closed watcher.events r1 _ hloop with
            hr | ⟨hr, _, _⟩ | ⟨st, ev, hmem, hm, ht, hst, hr⟩
          · rw [hr] at h
            simp at h
          · rw [hr] at h
            simp at h
          · rw [hr] at h
            simp only [Prod.mk.injEq, Option.some.injEq, and_true] at h
            rw [h.1] at hst
            exact ⟨pkg, watcher, ev, hc, hw, hmem, hm, ht, hst⟩
  refine ⟨hex, ?_⟩
  intro hterm
  obtain ⟨pkg, watcher, event, _, _, _, _, _, hst⟩ := hex
  unfold Event.extracted at hst
  cases hobj : event.Object with
  | package obj =>
    rw [hobj] at hst
    exact hterm obj.Status status hst
  | other tag =>
    rw [hobj] at hst
    simp at hst

/-! ## The claims -/

/-- C1: when the first deciding event of the watch stream is an Added or
Modified event, `awaitInstall` returns exactly the status extracted from that
event with a nil error, and the events received are those up to and including
that event (none after it); matching Added/Modified events with a nil
extracted status before it are passed over. -/
theorem awaitInstall_returns_first_status (c : PackageV1Alpha1Client)
    (gs : V1Alpha1PackageStatus → Option PackageStatus) (ctx : Context) (pkgUID : UID)
    (watcher : WatchInterface) (pre post : List Event) (event : Event)
    (hw : c.Watch ctx = Except.ok watcher)
    (hev : watcher.events = pre ++ event :: post)
    (hpre : ∀ e ∈ pre, e.deciding gs pkgUID = false)
    (hd : event.deciding gs pkgUID = true)
    (ht : event.Typ = EventType.Added ∨ event.Typ = EventType.Modified) :
    (event.extracted gs).isSome = true ∧
      installer.awaitInstall c gs ctx pkgUID =
        some ((event.extracted gs, none),
          Call.watch :: (pre ++ [event]).map Call.recv ++ [Call.watcherStop]) := by
  have hm : event.matchesUID pkgUID = true := by
    unfold Event.deciding at hd
    simp only [Bool.and_eq_true] at hd
    exact hd.1
  have hs : (event.extracted gs).isSome = true := by
    unfold Event.deciding at hd
    rcases ht with ht | ht <;> simp [ht] at hd <;> exact hd.2
  obtain ⟨status, hst⟩ := Option.isSome_iff_exists.mp hs
  refine ⟨hs, ?_⟩
  have hskip : ∀ e ∈ pre, awaitInstall.body gs pkgUID e = none :=
    fun e he => (body_eq_none_iff gs pkgUID e).mpr (hpre e he)
  have hloop := loop_at_first gs pkgUID watcher.closed pre post event (some status, none)
    hskip (body_of_status gs pkgUID event status hm ht hst)
  unfold installer.awaitInstall
  rw [hw]
  simp only [hev, hloop, hst]

/-- Scenario B run through C1: the two events before the Failed status are
passed over, the deletion after it is not received. -/
theorem awaitInstall_returns_first_status_witness :
    (Event.extracted client.GetStatus
        (exampleEvent EventType.Added "U1" Phase.Failed "ImagePullError" "")).isSome = true ∧
      installer.awaitInstall (exampleClient scenarioB true) client.GetStatus background "U1" =
        some ((Event.extracted client.GetStatus
            (exampleEvent EventType.Added "U1" Phase.Failed "ImagePullError" ""), none),
          Call.watch ::
            ([exampleEvent EventType.Modified "U2" Phase.Ready "" "",
              exampleEvent EventType.Added "U1" Phase.Unknown "" ""] ++
              [exampleEvent EventType.Added "U1" Phase.Failed "ImagePullError" ""]).map Call.recv
            ++ [Call.watcherStop]) :=
  awaitInstall_returns_first_status (exampleClient scenarioB true) client.GetStatus
    background "U1" { events := scenarioB, closed := true }
    [exampleEvent EventType.Modified "U2" Phase.Ready "" "",
     exampleEvent EventType.Added "U1" Phase.Unknown "" ""]
    [exampleEvent EventType.Deleted "U1" Phase.Failed "ImagePullError" ""]
    (exampleEvent EventType.Added "U1" Phase.Failed "ImagePullError" "")
    rfl rfl (by decide) (by decide) (by decide)

/-- C2: when a Deleted event of the target arrives before any Added/Modified
event of the target with a non-nil extracted status, `awaitInstall` returns a
nil status and the error "created package has been deleted unexpectedly", and
the events received are a leading part of the stream that ends no later than
that Deleted event. -/
theorem awaitInstall_premature_deletion (c : PackageV1Alpha1Client)
    (gs : V1Alpha1PackageStatus → Option PackageStatus) (ctx : Context) (pkgUID : UID)
    (watcher : WatchInterface) (pre post : List Event) (event : Event)
    (hw : c.Watch ctx = Except.ok watcher)
    (hev : watcher.events = pre ++ event :: post)
    (hpre : ∀ e ∈ pre, ¬ (e.matchesUID pkgUID = true ∧
      (e.Typ = EventType.Added ∨ e.Typ = EventType.Modified) ∧
      (e.extracted gs).isSome = true))
    (hm : event.matchesUID pkgUID = true) (ht : event.Typ = EventType.Deleted) :
    ∃ read, read <+: pre ++ [event] ∧
      installer.awaitInstall c gs ctx pkgUID =
        some ((none, some (GoError.errorsNew "created package has been deleted unexpectedly")),
          Call.watch :: read.map Call.recv ++ [Call.watcherStop]) := by
  obtain ⟨read, hread, hloop⟩ := loop_deleted gs pkgUID watcher.closed pre post event hpre hm ht
  refine ⟨read, hread, ?_⟩
  unfold installer.awaitInstall
  rw [hw]
  simp only [hev, hloop, errDeleted]

/-- Scenario C run through C2: the Ready status after the deletion is never
received. -/
theorem awaitInstall_premature_deletion_witness :
    ∃ read, read <+: [exampleEvent EventType.Modified "U2" Phase.Ready "" ""] ++
        [exampleEvent EventType.Deleted "U1" Phase.Unknown "" ""] ∧
      installer.awaitInstall (exampleClient scenarioC false) client.GetStatus background "U1" =
        some ((none, some (GoError.errorsNew "created package has been deleted unexpectedly")),
          Call.watch :: read.map Call.recv ++ [Call.watcherStop]) :=
  awaitInstall_premature_deletion (exampleClient scenarioC false) client.GetStatus
    background "U1" { events := scenarioC, closed := false }
    [exampleEvent EventType.Modified "U2" Phase.Ready "" ""]
    [exampleEvent EventType.Modified "U1" Phase.Ready "" ""]
    (exampleEvent EventType.Deleted "U1" Phase.Unknown "" "")
    rfl rfl (by decide) (by decide) (by decide)

/-- C3: when the stream holds no deciding event (no Added/Modified event of
the target with a non-nil extracted status, no Deleted event of the target)
and the producer closes it, `awaitInstall` receives every event and returns a
nil status and the error "failed to confirm package installation status",
which is not the error of a premature deletion. The empty stream is included. -/
theorem awaitInstall_stream_ended (c : PackageV1Alpha1Client)
    (gs : V1Alpha1PackageStatus → Option PackageStatus) (ctx : Context) (pkgUID : UID)
    (watcher : WatchInterface)
    (hw : c.Watch ctx = Except.ok watcher)
    (hclosed : watcher.closed = true)
    (hnone : ∀ e ∈ watcher.events, e.deciding gs pkgUID = false) :
    installer.awaitInstall c gs ctx pkgUID =
        some ((none, some (GoError.errorsNew "failed to confirm package installation status")),
          Call.watch :: watcher.events.map Call.recv ++ [Call.watcherStop]) ∧
      GoError.errorsNew "failed to confirm package installation status" ≠ errDeleted ∧
      (GoError.errorsNew "failed to confirm package installation status").Error ≠
        errDeleted.Error := by
  refine ⟨?_, by decide, by decide⟩
  have hloop := loop_undecided gs pkgUID watcher.closed watcher.events hnone
  rw [hclosed] at hloop
  unfold installer.awaitInstall
  rw [hw]
  simp only [hclosed, hloop, if_true, errUnconfirmed]

/-- Scenario D run through C3, on a stream with events of another package and
a status-less event of the target. -/
theorem awaitInstall_stream_ended_witness :
    installer.awaitInstall (exampleClient scenarioD true) client.GetStatus background "U1" =
        some ((none, some (GoError.errorsNew "failed to confirm package installation status")),
          Call.watch :: scenarioD.map Call.recv ++ [Call.watcherStop]) ∧
      GoError.errorsNew "failed to confirm package installation status" ≠ errDeleted ∧
      (GoError.errorsNew "failed to confirm package installation status").Error ≠
        errDeleted.Error :=
  awaitInstall_stream_ended (exampleClient scenarioD true) client.GetStatus background "U1"
    { events := scenarioD, closed := true } rfl rfl (by decide)

/-- C4: non-interference. Two watch streams that agree once every event that
is not about the target package is deleted (whatever its type and status),
and that are both closed or both left open, make `awaitInstall` return the
same status and the same error; and the loop body never returns at an event
that is not about the target. -/
theorem awaitInstall_noninterference (c1 c2 : PackageV1Alpha1Client)
    (gs : V1Alpha1PackageStatus → Option PackageStatus) (ctx : Context) (pkgUID : UID)
    (w1 w2 : WatchInterface)
    (h1 : c1.Watch ctx = Except.ok w1) (h2 : c2.Watch ctx = Except.ok w2)
    (hc : w1.closed = w2.closed)
    (hf : w1.events.filter (Event.matchesUID pkgUID) =
      w2.events.filter (Event.matchesUID pkgUID)) :
    (installer.awaitInstall c1 gs ctx pkgUID).map Prod.fst =
        (installer.awaitInstall c2 gs ctx pkgUID).map Prod.fst ∧
      ∀ event : Event, event.matchesUID pkgUID = false →
        awaitInstall.body gs pkgUID event = none := by
  refine ⟨?_, fun event hne => body_eq_none_of_not_matches gs pkgUID event hne⟩
  rw [awaitInstall_of_watch c1 gs ctx pkgUID w1 h1, awaitInstall_of_watch c2 gs ctx pkgUID w2 h2]
  have e1 := loop_filter gs pkgUID w1.closed w1.events
  have e2 := loop_filter gs pkgUID w2.closed w2.events
  rw [hf, hc] at e1
  rw [← e2] at e1
  have hfun : (Prod.fst ∘ fun p : Result × List Call =>
      (p.1, Call.watch :: p.2 ++ [Call.watcherStop])) = Prod.fst := rfl
  rw [Option.map_map, Option.map_map, hfun, hc]
  exact e1

/-- Scenario B with and without the Ready event of the other package `U2`:
the same result, and the body passes over that event. -/
theorem awaitInstall_noninterference_witness :
    (installer.awaitInstall (exampleClient scenarioB true) client.GetStatus
        background "U1").map Prod.fst =
      (installer.awaitInstall (exampleClient scenarioBTargetOnly true) client.GetStatus
        background "U1").map Prod.fst ∧
      awaitInstall.body client.GetStatus "U1"
        (exampleEvent EventType.Modified "U2" Phase.Ready "" "") = none :=
  ⟨(awaitInstall_noninterference (exampleClient scenarioB true)
      (exampleClient scenarioBTargetOnly true) client.GetStatus background "U1"
      { events := scenarioB, closed := true } { events := scenarioBTargetOnly, closed := true }
      rfl rfl rfl (by decide)).1,
   (awaitInstall_noninterference (exampleClient scenarioB true)
      (exampleClient scenarioBTargetOnly true) client.GetStatus background "U1"
      { events := scenarioB, closed := true } { events := scenarioBTargetOnly, closed := true }
      rfl rfl rfl (by decide)).2
      (exampleEvent EventType.Modified "U2" Phase.Ready "" "") (by decide)⟩

/-- C5: when the create request fails with error `err`, `InstallBlocking`
returns a nil status and `err` itself; its calls are the start of the sink,
one status message, one create request and the stop of the sink: a single
create, and the watch is never opened. -/
theorem InstallBlocking_create_fails (c : PackageV1Alpha1Client)
    (gs : V1Alpha1PackageStatus → Option PackageStatus) (ctx : Context)
    (packageName version : String) (err : GoError)
    (h : (c.Create ctx (client.NewPackage packageName version)).2 = some err) :
    installer.InstallBlocking c gs ctx packageName version =
      some ((none, some err),
        [Call.statusStart, Call.statusSetStatus ("Installing " ++ packageName ++ "..."),
          Call.create (client.NewPackage packageName version), Call.statusStop]) := by
  rcases InstallBlocking_eq c gs ctx packageName version with
    ⟨pkg, err1, hc, hib⟩ | ⟨pkg, hc, _⟩
  · rw [hc] at h
    simp only [Option.some.injEq] at h
    rw [hib, h]
  · rw [hc] at h
    simp at h

/-- Scenario E run through C5. -/
theorem InstallBlocking_create_fails_witness :
    installer.InstallBlocking rejectingClient client.GetStatus background "app" "" =
      some ((none, some (GoError.external "packages.glasskube.dev app already exists")),
        [Call.statusStart, Call.statusSetStatus ("Installing " ++ "app" ++ "..."),
          Call.create (client.NewPackage "app" ""), Call.statusStop]) :=
  InstallBlocking_create_fails rejectingClient client.GetStatus background "app" ""
    (GoError.external "packages.glasskube.dev app already exists") rfl

/-- C6: `InstallBlocking` ends in one of two ways. Either it returns, and then
exactly one of the returned status and the returned error is non-nil, so that
the command does not take its "no error and no status" branch; or it does not
return, which happens only when the package was created, the watch was opened,
and the stream neither holds a deciding event nor is ever closed. Every
outcome (create fails, watch cannot be opened, status, deletion, stream ended)
is of the first kind. -/
theorem InstallBlocking_result_wellformed (c : PackageV1Alpha1Client)
    (gs : V1Alpha1PackageStatus → Option PackageStatus) (ctx : Context)
    (packageName version : String) :
    (∃ r calls, installer.InstallBlocking c gs ctx packageName version = some (r, calls) ∧
        ((r.1.isSome = true ∧ r.2 = none) ∨ (r.1 = none ∧ r.2.isSome = true)) ∧
        r ≠ (none, none) ∧ (installCmd.Run r).stderr ≠ bugLine) ∨
      (installer.InstallBlocking c gs ctx packageName version = none ∧
        ∃ pkg watcher, c.Create ctx (client.NewPackage packageName version) = (pkg, none) ∧
          c.Watch ctx = Except.ok watcher ∧ watcher.closed = false ∧
          ∀ e ∈ watcher.events, e.deciding gs pkg.GetUID = false) := by
  rcases InstallBlocking_eq c gs ctx packageName version with
    ⟨pkg, err, _, hib⟩ | ⟨pkg, hc, hib⟩
  · left
    have hwf : ((none, some err) : Result).1.isSome = true ∧ ((none, some err) : Result).2 = none ∨
        ((none, some err) : Result).1 = none ∧ ((none, some err) : Result).2.isSome = true :=
      Or.inr ⟨rfl, rfl⟩
    exact ⟨(none, some err), _, hib, hwf, Run_not_bug_branch _ hwf⟩
  · cases ha : installer.awaitInstall c gs ctx pkg.GetUID with
    | some p =>
      obtain ⟨r, calls⟩ := p
      left
      have hwf := awaitInstall_result c gs ctx pkg.GetUID r calls ha
      refine ⟨r, [Call.statusStart,
        Call.statusSetStatus ("Installing " ++ packageName ++ "..."),
        Call.create (client.NewPackage packageName version)] ++ calls ++ [Call.statusStop],
        ?_, hwf, Run_not_bug_branch r hwf⟩
      rw [hib, ha]
      rfl
    | none =>
      right
      refine ⟨by rw [hib, ha]; rfl, pkg, ?_⟩
      cases hw : c.Watch ctx with
      | error err => simp [installer.awaitInstall, hw] at ha
      | ok watcher =>
        rw [awaitInstall_of_watch c gs ctx pkg.GetUID watcher hw] at ha
        have hl : awaitInstall.loop gs pkg.GetUID watcher.closed watcher.events = none := by
          cases hl : awaitInstall.loop gs pkg.GetUID watcher.closed watcher.events with
          | none => rfl
          | some p => simp [hl] at ha
        obtain ⟨hclosed, hall⟩ := loop_eq_none gs pkg.GetUID watcher.closed watcher.events hl
        exact ⟨watcher, hc, rfl, hclosed, hall⟩

/-- C6 on a watch that cannot be opened: the result is the error of the watch
alone. -/
theorem InstallBlocking_result_wellformed_witness :
    (∃ r calls, installer.InstallBlocking unwatchableClient client.GetStatus background
          "app" "1.0.0" = some (r, calls) ∧
        ((r.1.isSome = true ∧ r.2 = none) ∨ (r.1 = none ∧ r.2.isSome = true)) ∧
        r ≠ (none, none) ∧ (installCmd.Run r).stderr ≠ bugLine) ∨
      (installer.InstallBlocking unwatchableClient client.GetStatus background
          "app" "1.0.0" = none ∧
        ∃ pkg watcher, unwatchableClient.Create background (client.NewPackage "app" "1.0.0") =
            (pkg, none) ∧
          unwatchableClient.Watch background = Except.ok watcher ∧ watcher.closed = false ∧
          ∀ e ∈ watcher.events, e.deciding client.GetStatus pkg.GetUID = false) :=
  InstallBlocking_result_wellformed unwatchableClient client.GetStatus background "app" "1.0.0"

/-- C7: guaranteed cleanup. Whenever `InstallBlocking` returns, its calls
begin with the start of the progress sink and end with its stop, and neither
occurs in between (every status message lies in between); and whenever
`awaitInstall` returns after the watch was opened, its calls end with the stop
of the watcher, which does not occur before. -/
theorem cleanup_on_every_exit (c : PackageV1Alpha1Client)
    (gs : V1Alpha1PackageStatus → Option PackageStatus) (ctx : Context)
    (packageName version : String) (pkgUID : UID) :
    (∀ r calls, installer.InstallBlocking c gs ctx packageName version = some (r, calls) →
      ∃ mid, calls = Call.statusStart :: mid ++ [Call.statusStop] ∧
        Call.statusStart ∉ mid ∧ Call.statusStop ∉ mid) ∧
    (∀ watcher r calls, c.Watch ctx = Except.ok watcher →
      installer.awaitInstall c gs ctx pkgUID = some (r, calls) →
      ∃ mid, calls = mid ++ [Call.watcherStop] ∧ Call.watcherStop ∉ mid) := by
  constructor
  · intro r calls h
    rcases InstallBlocking_eq c gs ctx packageName version with
      ⟨pkg, err, _, hib⟩ | ⟨pkg, _, hib⟩
    · rw [hib] at h
      simp only [Option.some.injEq, Prod.mk.injEq] at h
      refine ⟨[Call.statusSetStatus ("Installing " ++ packageName ++ "..."),
        Call.create (client.NewPackage packageName version)], ?_, by simp, by simp⟩
      rw [← h.2]
      rfl
    · rw [hib] at h
      cases ha : installer.awaitInstall c gs ctx pkg.GetUID with
      | none => simp [ha] at h
      | some p =>
        obtain ⟨r1, calls1⟩ := p
        simp only [ha, Option.map_some', Option.some.injEq, Prod.mk.injEq] at h
        refine ⟨[Call.statusSetStatus ("Installing " ++ packageName ++ "..."),
          Call.create (client.NewPackage packageName version)] ++ calls1, ?_, ?_, ?_⟩
        · rw [← h.2]
          simp
        · rcases awaitInstall_calls c gs ctx pkg.GetUID r1 calls1 ha with
            ⟨_, _, _, hcalls⟩ | ⟨_, _, _, _, _, hcalls⟩ <;> simp [hcalls]
        · rcases awaitInstall_calls c gs ctx pkg.GetUID r1 calls1 ha with
            ⟨_, _, _, hcalls⟩ | ⟨_, _, _, _, _, hcalls⟩ <;> simp [hcalls]
  · intro watcher r calls hw h
    rcases awaitInstall_calls c gs ctx pkgUID r calls h with
      ⟨err, hw1, _, _⟩ | ⟨_, read, _, _, _, hcalls⟩
    · rw [hw] at hw1
      cases hw1
    · exact ⟨Call.watch :: read.map Call.recv, by simp [hcalls], by simp⟩

/-- C7 on scenario C: the sink is stopped and the watcher is stopped although
the wait ends with the deletion error. -/
theorem cleanup_on_every_exit_witness :
    (∃ mid,
      [Call.statusStart, Call.statusSetStatus "Installing app...",
        Call.create (client.NewPackage "app" ""), Call.watch,
        Call.recv (exampleEvent EventType.Modified "U2" Phase.Ready "" ""),
        Call.recv (exampleEvent EventType.Deleted "U1" Phase.Unknown "" ""),
        Call.watcherStop, Call.statusStop] = Call.statusStart :: mid ++ [Call.statusStop] ∧
      Call.statusStart ∉ mid ∧ Call.statusStop ∉ mid) ∧
    (∃ mid,
      [Call.watch, Call.recv (exampleEvent EventType.Modified "U2" Phase.Ready "" ""),
        Call.recv (exampleEvent EventType.Deleted "U1" Phase.Unknown "" ""),
        Call.watcherStop] = mid ++ [Call.watcherStop] ∧ Call.watcherStop ∉ mid) :=
  ⟨(cleanup_on_every_exit (exampleClient scenarioC false) client.GetStatus background
      "app" "" "U1").1 (none, some errDeleted) _ (by decide),
   (cleanup_on_every_exit (exampleClient scenarioC false) client.GetStatus background
      "app" "" "U1").2 { events := scenarioC, closed := false } (none, some errDeleted) _
      rfl (by decide)⟩

/-- C8, as stated, fails: the caller cancels the context during the watch,
no deciding event for `U1` has arrived, the stream is closed, and
`awaitInstall` returns the unconfirmed-status error itself, not an error
distinct from it. -/
theorem awaitInstall_cancelled_counterexample :
    cancelledContext.cancelled = true ∧
      (scenarioD.all fun e => !e.deciding client.GetStatus "U1") = true ∧
      installer.awaitInstall (exampleClient scenarioD true) client.GetStatus
          cancelledContext "U1" =
        some ((none, some errUnconfirmed),
          Call.watch :: scenarioD.map Call.recv ++ [Call.watcherStop]) := by
  decide

/-- C8, amended: when the context is cancelled during the watch and the
stream is closed without a deciding event for the target having arrived,
`awaitInstall` stops the watcher and returns the unconfirmed-status error,
which is distinct from the premature-deletion error. -/
theorem awaitInstall_cancelled_unconfirmed (c : PackageV1Alpha1Client)
    (gs : V1Alpha1PackageStatus → Option PackageStatus) (ctx : Context) (pkgUID : UID)
    (watcher : WatchInterface)
    (_hctx : ctx.cancelled = true)
    (hw : c.Watch ctx = Except.ok watcher)
    (hclosed : watcher.closed = true)
    (hnone : ∀ e ∈ watcher.events, e.deciding gs pkgUID = false) :
    installer.awaitInstall c gs ctx pkgUID =
        some ((none, some errUnconfirmed),
          Call.watch :: watcher.events.map Call.recv ++ [Call.watcherStop]) ∧
      errUnconfirmed ≠ errDeleted := by
  refine ⟨?_, by decide⟩
  rw [awaitInstall_of_watch c gs ctx pkgUID watcher hw,
    loop_undecided gs pkgUID watcher.closed watcher.events hnone, hclosed]
  simp

/-- The amended C8 on a cancelled context whose stream delivered a status-less
Added event of the target and an event of another package before it closed. -/
theorem awaitInstall_cancelled_unconfirmed_witness :
    installer.awaitInstall
        (exampleClient [exampleEvent EventType.Added "U1" Phase.Unknown "" "",
          exampleEvent EventType.Deleted "U2" Phase.Ready "" ""] true)
        client.GetStatus cancelledContext "U1" =
        some ((none, some errUnconfirmed),
          Call.watch ::
            ({ events := [exampleEvent EventType.Added "U1" Phase.Unknown "" "",
                exampleEvent EventType.Deleted "U2" Phase.Ready "" ""],
               closed := true } : WatchInterface).events.map Call.recv
            ++ [Call.watcherStop]) ∧
      errUnconfirmed ≠ errDeleted :=
  awaitInstall_cancelled_unconfirmed
    (exampleClient [exampleEvent EventType.Added "U1" Phase.Unknown "" "",
      exampleEvent EventType.Deleted "U2" Phase.Ready "" ""] true)
    client.GetStatus cancelledContext "U1"
    { events := [exampleEvent EventType.Added "U1" Phase.Unknown "" "",
        exampleEvent EventType.Deleted "U2" Phase.Ready "" ""],
      closed := true }
    rfl rfl rfl (by decide)

/-- C9: the wait does not end on Ready or Failed only. With the status
extraction of the specification, the created package `U1` reports the phase
Progressing with a message, and `InstallBlocking` returns that status with a
nil error: a status whose `Status` is neither Ready nor Failed. -/
theorem InstallBlocking_returns_progressing :
    installer.InstallBlocking (exampleClient scenarioProgressing true) client.GetStatus
        background "app" "" =
      some ((some { Status := "Progressing", Reason := "", Message := "Pulling image" }, none),
        [Call.statusStart, Call.statusSetStatus "Installing app...",
          Call.create (client.NewPackage "app" ""), Call.watch,
          Call.recv (exampleEvent EventType.Modified "U1" Phase.Progressing "" "Pulling image"),
          Call.watcherStop, Call.statusStop]) ∧
      "Progressing" ≠ condition.Ready ∧ "Progressing" ≠ condition.Failed := by
  decide

/-- C10: the report of the install command is determined by the pair
`(status, err)` that `InstallBlocking` returned. With a non-nil error it
writes the error to standard error and exits with code 1; with a nil error
and a nil status it writes the "status unknown ... (this is a bug)" line to
standard error and exits with code 1; with a nil error and a status whose
`Status` is Ready it prints "Installed successfully." and does not call exit;
with a nil error and any other status it prints the status, the reason and
the message and does not call exit. -/
theorem installCmd_Run_report :
    (∀ (status : Option PackageStatus) (err : GoError),
      installCmd.Run (status, some err) =
        { stdout := "",
          stderr := "An error occurred during installation:\n\n" ++ err.Error ++ "\n",
          exit := some 1 }) ∧
    installCmd.Run (none, none) = { stdout := "", stderr := bugLine, exit := some 1 } ∧
    (∀ status : PackageStatus, status.Status = condition.Ready →
      installCmd.Run (some status, none) =
        { stdout := "Installed successfully.\n", stderr := "", exit := none }) ∧
    (∀ status : PackageStatus, status.Status ≠ condition.Ready →
      installCmd.Run (some status, none) =
        { stdout := "Installation has status " ++ status.Status ++ ", reason: " ++
            status.Reason ++ "\nMessage: " ++ status.Message ++ "\n",
          stderr := "", exit := none }) := by
  refine ⟨?_, rfl, ?_, ?_⟩
  · intro status err
    cases status <;> rfl
  · intro status h
    simp [installCmd.Run, h]
  · intro status h
    simp [installCmd.Run, h]

/-- C10 on the pairs of the scenarios: a Ready status, a Failed status with a
reason, and the deletion error next to a nil status. -/
theorem installCmd_Run_report_witness :
    installCmd.Run (none, some errDeleted) =
        { stdout := "",
          stderr := "An error occurred during installation:\n\n" ++ errDeleted.Error ++ "\n",
          exit := some 1 } ∧
      installCmd.Run (some { Status := "Ready", Reason := "", Message := "" }, none) =
        { stdout := "Installed successfully.\n", stderr := "", exit := none } ∧
      installCmd.Run
          (some { Status := "Failed", Reason := "ImagePullError", Message := "" }, none) =
        { stdout := "Installation has status " ++ "Failed" ++ ", reason: " ++
            "ImagePullError" ++ "\nMessage: " ++ "" ++ "\n",
          stderr := "", exit := none } :=
  ⟨installCmd_Run_report.1 none errDeleted,
   installCmd_Run_report.2.2.1 { Status := "Ready", Reason := "", Message := "" } rfl,
   installCmd_Run_report.2.2.2
     { Status := "Failed", Reason := "ImagePullError", Message := "" } (by decide)⟩

end Glasskube
